import Mathlib

/-!
Verification of the stress-test harness in crates/stress-test/src/main.rs
(function run_stress_test and its surrounding control flow).

The embedding is a small-step operational semantics for the concurrent part
(the N spawned driver futures, the tokio Barrier with count + 1 parties, the
counting Semaphore, and the OnceCell holding the measurement start instant),
a guarded event-list semantics for the select! control loop, a pure function
for the post-loop finalization, and a pure function for the setup phase that
constructs the pause container.  Time is a logical clock: every step of the
machine advances it by one, so event order is reflected in strictly
increasing timestamps.
-/

namespace StressTest

/-- Which of the backend calls made by one driver future succeed.
One driver (the async block pushed on the tracker, main.rs lines 133-155)
makes five fallible backend calls:
shim.task(image, args), task.create(container_output), task.start(),
task.wait(), task.delete().  An oracle fixes the result of each. -/
structure Oracle where
  constructOk : Bool
  createOk : Bool
  startOk : Bool
  waitOk : Bool
  deleteOk : Bool
deriving DecidableEq, Repr

/-- Program counter of one driver future, following main.rs lines 133-155:
newTask is about to call shim.task (line 136); preBarrier is about to call
barrier.wait (line 139); inBarrier has arrived at the barrier and is
suspended until release; acquire is about to call semaphore.acquire_owned
(line 142); setStart is about to run start.set(Instant::now()) (line 143);
create is about to call task.create (line 145); start is about to call
task.start (line 146); dropPermit is about to run drop(permit) (line 149);
wait is about to call task.wait (line 151); delete is about to call
task.delete (line 152); done b is the resolved future (b = true for Ok). -/
inductive PC where
  | newTask
  | preBarrier
  | inBarrier
  | acquire
  | setStart
  | create
  | start
  | dropPermit
  | wait
  | delete
  | done (ok : Bool)
deriving DecidableEq, Repr

/-- State of one driver future.  arrived records whether this driver has
called barrier.wait; holdsPermit whether it currently owns a semaphore
permit; acquires and releases count its semaphore operations;
newTaskDoneAt is the logical time at which its shim.task call returned
successfully (none while pending or if the call failed). -/
structure Driver where
  oracle : Oracle
  pc : PC
  arrived : Bool
  holdsPermit : Bool
  acquires : Nat
  releases : Nat
  newTaskDoneAt : Option Nat
deriving DecidableEq, Repr

/-- Global state of the run: the driver futures, whether the orchestrator
has called barrier.wait (line 158), the barrier arrival counter, whether
the barrier has released (and at what logical time), the number of
semaphore permits currently held, the OnceCell content, and the logical
clock. -/
structure RunState where
  drivers : List Driver
  orchArrived : Bool
  arrivedCount : Nat
  released : Bool
  releasedAt : Option Nat
  held : Nat
  startTime : Option Nat
  clock : Nat
deriving DecidableEq, Repr

/-- Size of the semaphore permit pool, main.rs line 120:
let permits = if parallel == 0 { count } else { parallel }. -/
def permits (parallel count : Nat) : Nat :=
  if parallel = 0 then count else parallel

/-- Advance the logical clock by one step. -/
def tick (s : RunState) : RunState :=
  { s with clock := s.clock + 1 }

/-- One party arrives at the barrier (tokio Barrier::new(count + 1),
main.rs line 122): the arrival counter increments, and when it reaches
count + 1 the barrier releases, at the current logical time. -/
def bumpArrival (count : Nat) (s : RunState) : RunState :=
  if s.arrivedCount + 1 = count + 1 then
    { s with
        arrivedCount := s.arrivedCount + 1
        released := true
        releasedAt := some s.clock }
  else
    { s with arrivedCount := s.arrivedCount + 1 }

/-- A fresh driver future for a given oracle. -/
def Driver.fresh (o : Oracle) : Driver :=
  { oracle := o
    pc := PC.newTask
    arrived := false
    holdsPermit := false
    acquires := 0
    releases := 0
    newTaskDoneAt := none }

/-- Initial state of the run: count driver futures just pushed on the
tracker, the orchestrator not yet at the barrier, no permits held, the
OnceCell empty. -/
def initState (os : List Oracle) : RunState :=
  { drivers := os.map Driver.fresh
    orchArrived := false
    arrivedCount := 0
    released := false
    releasedAt := none
    held := 0
    startTime := none
    clock := 0 }

/-- Interleaving semantics of the concurrent part of run_stress_test.
Each constructor is one atomic step of one driver future (or of the
orchestrator arriving at the barrier, line 158).  Failure of a backend
call makes the enclosing async block return Err via the question-mark
operator; an early return while the permit is owned drops the permit
(scoped ownership), releasing it back to the semaphore.  The semaphore
is never closed in this program, so acquire_owned only ever succeeds,
after waiting for a free permit. -/
inductive Step (count parallel : Nat) : RunState → RunState → Prop where
  | newTask_ok (s s' : RunState) (i : Nat) (d : Driver)
      (hd : s.drivers[i]? = some d) (hpc : d.pc = PC.newTask)
      (ho : d.oracle.constructOk = true)
      (hs : s' = tick { s with
        drivers := s.drivers.set i { d with pc := PC.preBarrier, newTaskDoneAt := some s.clock } }) :
      Step count parallel s s'
  | newTask_err (s s' : RunState) (i : Nat) (d : Driver)
      (hd : s.drivers[i]? = some d) (hpc : d.pc = PC.newTask)
      (ho : d.oracle.constructOk = false)
      (hs : s' = tick { s with
        drivers := s.drivers.set i { d with pc := PC.done false } }) :
      Step count parallel s s'
  | barrier_arrive (s s' : RunState) (i : Nat) (d : Driver)
      (hd : s.drivers[i]? = some d) (hpc : d.pc = PC.preBarrier)
      (hs : s' = tick (bumpArrival count { s with
        drivers := s.drivers.set i { d with pc := PC.inBarrier, arrived := true } })) :
      Step count parallel s s'
  | barrier_pass (s s' : RunState) (i : Nat) (d : Driver)
      (hd : s.drivers[i]? = some d) (hpc : d.pc = PC.inBarrier)
      (hrel : s.released = true)
      (hs : s' = tick { s with
        drivers := s.drivers.set i { d with pc := PC.acquire } }) :
      Step count parallel s s'
  | acquirePermit (s s' : RunState) (i : Nat) (d : Driver)
      (hd : s.drivers[i]? = some d) (hpc : d.pc = PC.acquire)
      (hcap : s.held < permits parallel count)
      (hs : s' = tick { s with
        drivers := s.drivers.set i
          { d with pc := PC.setStart, holdsPermit := true, acquires := d.acquires + 1 },
        held := s.held + 1 }) :
      Step count parallel s s'
  | setStartCell (s s' : RunState) (i : Nat) (d : Driver)
      (hd : s.drivers[i]? = some d) (hpc : d.pc = PC.setStart)
      (hs : s' = tick { s with
        drivers := s.drivers.set i { d with pc := PC.create },
        startTime := some (s.startTime.getD s.clock) }) :
      Step count parallel s s'
  | create_ok (s s' : RunState) (i : Nat) (d : Driver)
      (hd : s.drivers[i]? = some d) (hpc : d.pc = PC.create)
      (ho : d.oracle.createOk = true)
      (hs : s' = tick { s with
        drivers := s.drivers.set i { d with pc := PC.start } }) :
      Step count parallel s s'
  | create_err (s s' : RunState) (i : Nat) (d : Driver)
      (hd : s.drivers[i]? = some d) (hpc : d.pc = PC.create)
      (ho : d.oracle.createOk = false)
      (hs : s' = tick { s with
        drivers := s.drivers.set i
          { d with pc := PC.done false, holdsPermit := false, releases := d.releases + 1 },
        held := s.held - 1 }) :
      Step count parallel s s'
  | start_ok (s s' : RunState) (i : Nat) (d : Driver)
      (hd : s.drivers[i]? = some d) (hpc : d.pc = PC.start)
      (ho : d.oracle.startOk = true)
      (hs : s' = tick { s with
        drivers := s.drivers.set i { d with pc := PC.dropPermit } }) :
      Step count parallel s s'
  | start_err (s s' : RunState) (i : Nat) (d : Driver)
      (hd : s.drivers[i]? = some d) (hpc : d.pc = PC.start)
      (ho : d.oracle.startOk = false)
      (hs : s' = tick { s with
        drivers := s.drivers.set i
          { d with pc := PC.done false, holdsPermit := false, releases := d.releases + 1 },
        held := s.held - 1 }) :
      Step count parallel s s'
  | dropPermitStep (s s' : RunState) (i : Nat) (d : Driver)
      (hd : s.drivers[i]? = some d) (hpc : d.pc = PC.dropPermit)
      (hs : s' = tick { s with
        drivers := s.drivers.set i
          { d with pc := PC.wait, holdsPermit := false, releases := d.releases + 1 },
        held := s.held - 1 }) :
      Step count parallel s s'
  | wait_ok (s s' : RunState) (i : Nat) (d : Driver)
      (hd : s.drivers[i]? = some d) (hpc : d.pc = PC.wait)
      (ho : d.oracle.waitOk = true)
      (hs : s' = tick { s with
        drivers := s.drivers.set i { d with pc := PC.delete } }) :
      Step count parallel s s'
  | wait_err (s s' : RunState) (i : Nat) (d : Driver)
      (hd : s.drivers[i]? = some d) (hpc : d.pc = PC.wait)
      (ho : d.oracle.waitOk = false)
      (hs : s' = tick { s with
        drivers := s.drivers.set i { d with pc := PC.done false } }) :
      Step count parallel s s'
  | delete_ok (s s' : RunState) (i : Nat) (d : Driver)
      (hd : s.drivers[i]? = some d) (hpc : d.pc = PC.delete)
      (ho : d.oracle.deleteOk = true)
      (hs : s' = tick { s with
        drivers := s.drivers.set i { d with pc := PC.done true } }) :
      Step count parallel s s'
  | delete_err (s s' : RunState) (i : Nat) (d : Driver)
      (hd : s.drivers[i]? = some d) (hpc : d.pc = PC.delete)
      (ho : d.oracle.deleteOk = false)
      (hs : s' = tick { s with
        drivers := s.drivers.set i { d with pc := PC.done false } }) :
      Step count parallel s s'
  | orchArrive (s s' : RunState)
      (horch : s.orchArrived = false)
      (hs : s' = tick (bumpArrival count { s with orchArrived := true })) :
      Step count parallel s s'

/-- States reachable from the initial state of a run with the given
driver oracles and parallel setting (count is the number of oracles). -/
inductive Reach (os : List Oracle) (parallel : Nat) : RunState → Prop where
  | refl : Reach os parallel (initState os)
  | step (s s' : RunState) (h : Reach os parallel s)
      (hs : Step os.length parallel s s') : Reach os parallel s'

/-- Program counters at which a driver owns a semaphore permit: from the
return of acquire_owned (line 142) to drop(permit) (line 149). -/
def holdingPC : PC → Bool
  | PC.setStart => true
  | PC.create => true
  | PC.start => true
  | PC.dropPermit => true
  | _ => false

/-- Program counters strictly past the setup barrier (a driver only
reaches these after barrier.wait returned). -/
def pastSetup : PC → Bool
  | PC.acquire => true
  | PC.setStart => true
  | PC.create => true
  | PC.start => true
  | PC.dropPermit => true
  | PC.wait => true
  | PC.delete => true
  | _ => false

/-! ### The select! control loop (main.rs lines 164-209) -/

/-- One readiness event consumed by an iteration of the select! loop:
the orchestrator barrier.wait future completing (setupDone), the watchdog
timer firing (timeoutFired), ctrl_c resolving (interrupt), tracker.next()
yielding one driver outcome (result, true for Ok), or tracker.next()
yielding None because every driver future has been drained (exhausted). -/
inductive Event where
  | setupDone
  | timeoutFired
  | interrupt
  | result (ok : Bool)
  | exhausted
deriving DecidableEq, Repr

/-- Why the loop broke: the watchdog branch, the ctrl_c branch, or
tracker.next() returning None after all drivers reported. -/
inductive StopReason where
  | timeout
  | interrupted
  | allReported
deriving DecidableEq, Repr

/-- The mutable state of the control loop: whether the setup_done future
has completed (the fused barrier.wait of line 158), and the three
counters of lines 164-166. -/
structure LoopState where
  setupDone : Bool
  success : Nat
  failed : Nat
  incomplete : Nat
deriving DecidableEq, Repr

/-- Initial loop state, main.rs lines 164-166: incomplete = count,
success = 0, failed = 0, and setup not yet observed done. -/
def initLoop (count : Nat) : LoopState :=
  { setupDone := false, success := 0, failed := 0, incomplete := count }

/-- Effect of one non-breaking select! arm on the loop state:
the setup_done arm only flips the flag (and prints); an Ok(()) outcome
increments success and decrements incomplete (lines 190-197); an Err
outcome increments failed, decrements incomplete, and prints the failure
(lines 199-205).  Breaking arms never use this function. -/
def applyEv (s : LoopState) : Event → LoopState
  | Event.setupDone => { s with setupDone := true }
  | Event.result true =>
      { s with success := s.success + 1, incomplete := s.incomplete - 1 }
  | Event.result false =>
      { s with failed := s.failed + 1, incomplete := s.incomplete - 1 }
  | _ => s

/-- Which events break the loop, and with which reason: the watchdog arm
breaks with Timeout (line 178), the ctrl_c arm with Cancelled (line 183),
and tracker.next() returning None with all-reported (line 187). -/
def stopOf : Event → Option StopReason
  | Event.timeoutFired => some StopReason.timeout
  | Event.interrupt => some StopReason.interrupted
  | Event.exhausted => some StopReason.allReported
  | _ => none

/-- Run the select! loop over a sequence of readiness events: each event
is one loop iteration; a breaking event stops the loop at once with its
reason, any other event updates the state and continues.  An empty
remainder means the loop is still blocked waiting (it has not exited). -/
def runLoop (s : LoopState) : List Event → LoopState × Option StopReason
  | [] => (s, none)
  | e :: es =>
      match stopOf e with
      | some r => (s, some r)
      | none => runLoop (applyEv s e) es

/-- Modelled from the spec: utils::watchdog (crates/stress-test/src/utils.rs,
whose source is not under src/) is a timer future that completes once the
given duration has elapsed, and never completes when the configured
timeout is zero: "if the configured timeout is zero, this condition is
permanently disabled". -/
def watchdogCanFire (timeout : Nat) : Bool :=
  timeout != 0

/-- Admissible event sequences for a run with the given timeout and task
count, tracking the setup_done flag and the number of driver outcomes
already yielded by the tracker.  Guards, from the select! expression of
lines 169-207 and the semantics of the primitives polled there:
the fused setup_done future completes at most once; the watchdog arm is
guarded by setup_done.is_terminated() (line 175) and by the watchdog
itself being able to fire; the tracker yields exactly count outcomes
before returning None. -/
inductive ValidEvents (timeout count : Nat) : Bool → Nat → List Event → Prop where
  | nil (flag : Bool) (seen : Nat) : ValidEvents timeout count flag seen []
  | setup (seen : Nat) (evs : List Event)
      (h : ValidEvents timeout count true seen evs) :
      ValidEvents timeout count false seen (Event.setupDone :: evs)
  | fire (seen : Nat) (evs : List Event)
      (hw : watchdogCanFire timeout = true)
      (h : ValidEvents timeout count true seen evs) :
      ValidEvents timeout count true seen (Event.timeoutFired :: evs)
  | intr (flag : Bool) (seen : Nat) (evs : List Event)
      (h : ValidEvents timeout count flag seen evs) :
      ValidEvents timeout count flag seen (Event.interrupt :: evs)
  | res (flag : Bool) (seen : Nat) (ok : Bool) (evs : List Event)
      (hseen : seen < count)
      (h : ValidEvents timeout count flag (seen + 1) evs) :
      ValidEvents timeout count flag seen (Event.result ok :: evs)
  | drain (flag : Bool) (evs : List Event)
      (h : ValidEvents timeout count flag count evs) :
      ValidEvents timeout count flag count (Event.exhausted :: evs)

/-! ### Post-loop finalization (main.rs lines 211-224) -/

/-- What run_stress_test does after the loop: the failure branch prints
the triple and bails with a non-zero exit (lines 211-214); otherwise it
reads the OnceCell with start.get().unwrap(), which panics if the cell
was never set, and on success prints the success count, the elapsed
time, and the throughput (count divided by elapsed, a float: only the
elapsed duration is modelled here) and returns Ok, exit code zero. -/
inductive FinalOutcome where
  | failureSummary (success failed incomplete : Nat)
  | panicked
  | successSummary (success : Nat) (elapsed : Nat)
deriving DecidableEq, Repr

/-- The post-loop finalization, main.rs lines 211-224.  now is the
logical time at which the loop exited; startTime the OnceCell content. -/
def finalize (count success failed incomplete : Nat)
    (startTime : Option Nat) (now : Nat) : FinalOutcome :=
  if success ≠ count then
    FinalOutcome.failureSummary success failed incomplete
  else
    match startTime with
    | none => FinalOutcome.panicked
    | some t => FinalOutcome.successSummary success (now - t)

/-- Whether the printed final summary contains all three counters
success, failed, incomplete: only the failure branch of line 212 prints
the triple; the success branch of lines 220-222 prints the success count,
elapsed time and throughput. -/
def reportsTriple : FinalOutcome → Bool
  | FinalOutcome.failureSummary _ _ _ => true
  | _ => false

/-- Whether the run claims success: the green summary of lines 220-222. -/
def claimsSuccess : FinalOutcome → Bool
  | FinalOutcome.successSummary _ _ => true
  | _ => false

/-- Whether the process exits with code zero: only when run_stress_test
returns Ok; bail! gives Err (non-zero exit) and a panic aborts the
process with a non-zero status. -/
def exitZero : FinalOutcome → Bool
  | FinalOutcome.successSummary _ _ => true
  | _ => false

/-! ### Setup phase: shim start and the pause container
    (main.rs lines 113-118) -/

/-- Which of the fallible calls of the setup phase succeed:
c8d.start_shim(shim) (line 113), shim.task(&image, &args) for the pause
container (line 117), and pause.create(false) (line 118). -/
structure SetupOracle where
  shimOk : Bool
  pauseTaskOk : Bool
  pauseCreateOk : Bool
deriving DecidableEq, Repr

/-- Lifecycle operations that can be performed on the pause task. -/
inductive PauseOp where
  | newTask (image : String) (args : List String)
  | create (captureOutput : Bool)
  | start
  | wait
  | delete
deriving DecidableEq, Repr

/-- Result of the setup phase: the lifecycle operations successfully
performed on the pause task, how many driver futures were pushed on the
tracker, and whether run_stress_test proceeded past setup (false means
an early Err return via the question-mark operator). -/
structure SetupResult where
  pauseOps : List PauseOp
  spawned : Nat
  ok : Bool
deriving DecidableEq, Repr

/-- The setup phase of run_stress_test, main.rs lines 113-156: start the
shim, construct the pause container from the same image and args as the
stress tasks, create it (never start, wait, or delete it), then push
count driver futures on the tracker.  Any failure returns early, before
any driver future is spawned. -/
def setupPhase (o : SetupOracle) (image : String) (args : List String)
    (count : Nat) : SetupResult :=
  if o.shimOk = false then
    { pauseOps := [], spawned := 0, ok := false }
  else if o.pauseTaskOk = false then
    { pauseOps := [], spawned := 0, ok := false }
  else if o.pauseCreateOk = false then
    { pauseOps := [PauseOp.newTask image args], spawned := 0, ok := false }
  else
    { pauseOps := [PauseOp.newTask image args, PauseOp.create false],
      spawned := count, ok := true }

/-! ### Run invariant -/

/-- Inductive invariant of the concurrent semantics, preserved by every
Step and true of the initial state.  It ties the semaphore, the barrier
arrival counter, the per-driver program counters, and the recorded
timestamps together. -/
structure Inv (count parallel : Nat) (s : RunState) : Prop where
  len_eq : s.drivers.length = count
  held_le : s.held ≤ permits parallel count
  holding_iff : ∀ d ∈ s.drivers, d.holdsPermit = holdingPC d.pc
  acq_zero : ∀ d ∈ s.drivers,
    (d.pc = PC.newTask ∨ d.pc = PC.preBarrier ∨ d.pc = PC.inBarrier ∨ d.pc = PC.acquire) →
    d.acquires = 0
  acq_le : ∀ d ∈ s.drivers, d.acquires ≤ 1
  acq_rel : ∀ d ∈ s.drivers,
    d.acquires = d.releases + (if d.holdsPermit then 1 else 0)
  count_arrived : s.arrivedCount =
    s.drivers.countP (fun d => d.arrived) + (if s.orchArrived then 1 else 0)
  released_iff : s.released = decide (s.arrivedCount = count + 1)
  pc_construct : ∀ d ∈ s.drivers,
    d.pc ≠ PC.newTask → d.pc ≠ PC.done false → d.oracle.constructOk = true
  arrived_ok : ∀ d ∈ s.drivers, d.arrived = true → d.oracle.constructOk = true
  arrived_time : ∀ d ∈ s.drivers, d.arrived = true →
    ∃ c, d.newTaskDoneAt = some c ∧ c < s.clock
  preBarrier_time : ∀ d ∈ s.drivers, d.pc = PC.preBarrier →
    ∃ c, d.newTaskDoneAt = some c ∧ c < s.clock
  pc_no_arrive : ∀ d ∈ s.drivers,
    (d.pc = PC.newTask ∨ d.pc = PC.preBarrier) → d.arrived = false
  past_released : ∀ d ∈ s.drivers,
    (pastSetup d.pc = true ∨ d.pc = PC.done true) → s.released = true
  released_arrived : s.released = true →
    (∀ d ∈ s.drivers, d.arrived = true) ∧ s.orchArrived = true
  releasedAt_some : s.releasedAt.isSome = s.released
  releasedAt_lt : ∀ r, s.releasedAt = some r → r < s.clock
  releasedAt_after : ∀ r, s.releasedAt = some r →
    ∀ d ∈ s.drivers, ∃ c, d.newTaskDoneAt = some c ∧ c < r
  startTime_inv : ∀ t, s.startTime = some t →
    ∃ r, s.releasedAt = some r ∧ r ≤ t ∧ t < s.clock

/-! ### Concrete runs used as witnesses and counterexamples -/

/-- An oracle under which every backend call succeeds. -/
def allOk : Oracle :=
  { constructOk := true, createOk := true, startOk := true,
    waitOk := true, deleteOk := true }

/-- Two drivers; the first fails its shim.task call, the second is
fault-free. -/
def c1oracles : List Oracle :=
  [{ allOk with constructOk := false }, allOk]

/-- The state after the single step in which driver 0 executes its
failing shim.task call: its future resolves to Err without ever touching
the barrier. -/
def c1s1 : RunState :=
  { drivers :=
      [{ Driver.fresh { allOk with constructOk := false } with pc := PC.done false },
       Driver.fresh allOk]
    orchArrived := false
    arrivedCount := 0
    released := false
    releasedAt := none
    held := 0
    startTime := none
    clock := 1 }

/-- A single fault-free driver, used for the witness run. -/
def wOs : List Oracle := [allOk]

/-- Witness run, step 1: driver 0 finishes shim.task at time 0. -/
def w1 : RunState :=
  { drivers := [{ Driver.fresh allOk with pc := PC.preBarrier, newTaskDoneAt := some 0 }]
    orchArrived := false
    arrivedCount := 0
    released := false
    releasedAt := none
    held := 0
    startTime := none
    clock := 1 }

/-- Witness run, step 2: the orchestrator arrives at the barrier. -/
def w2 : RunState :=
  { w1 with orchArrived := true, arrivedCount := 1, clock := 2 }

/-- Witness run, step 3: driver 0 arrives; the barrier releases at
time 2. -/
def w3 : RunState :=
  { w2 with
      drivers := [{ Driver.fresh allOk with pc := PC.inBarrier, arrived := true, newTaskDoneAt := some 0 }],
      arrivedCount := 2, released := true, releasedAt := some 2, clock := 3 }

/-- Witness run, step 4: driver 0 resumes past the barrier. -/
def w4 : RunState :=
  { w3 with
      drivers := [{ Driver.fresh allOk with pc := PC.acquire, arrived := true, newTaskDoneAt := some 0 }],
      clock := 4 }

/-- Witness run, step 5: driver 0 acquires the admission permit. -/
def w5 : RunState :=
  { w4 with
      drivers := [{ Driver.fresh allOk with pc := PC.setStart, arrived := true, holdsPermit := true, acquires := 1, newTaskDoneAt := some 0 }],
      held := 1, clock := 5 }

/-- Witness run, step 6: driver 0 sets the measurement start instant. -/
def w6 : RunState :=
  { w5 with
      drivers := [{ Driver.fresh allOk with pc := PC.create, arrived := true, holdsPermit := true, acquires := 1, newTaskDoneAt := some 0 }],
      startTime := some 5, clock := 6 }

/-- Witness run, step 7: task.create succeeds. -/
def w7 : RunState :=
  { w6 with
      drivers := [{ Driver.fresh allOk with pc := PC.start, arrived := true, holdsPermit := true, acquires := 1, newTaskDoneAt := some 0 }],
      clock := 7 }

/-- Witness run, step 8: task.start succeeds. -/
def w8 : RunState :=
  { w7 with
      drivers := [{ Driver.fresh allOk with pc := PC.dropPermit, arrived := true, holdsPermit := true, acquires := 1, newTaskDoneAt := some 0 }],
      clock := 8 }

/-- Witness run, step 9: the permit is dropped before task.wait. -/
def w9 : RunState :=
  { w8 with
      drivers := [{ Driver.fresh allOk with pc := PC.wait, arrived := true, acquires := 1, releases := 1, newTaskDoneAt := some 0 }],
      held := 0, clock := 9 }

/-- Witness run, step 10: task.wait succeeds. -/
def w10 : RunState :=
  { w9 with
      drivers := [{ Driver.fresh allOk with pc := PC.delete, arrived := true, acquires := 1, releases := 1, newTaskDoneAt := some 0 }],
      clock := 10 }

/-- The resolved driver record of the witness run. -/
def w11driver : Driver :=
  { Driver.fresh allOk with pc := PC.done true, arrived := true, acquires := 1, releases := 1, newTaskDoneAt := some 0 }

/-- Witness run, step 11: task.delete succeeds and the driver future
resolves Ok. -/
def w11 : RunState :=
  { w10 with
      drivers := [{ Driver.fresh allOk with pc := PC.done true, arrived := true, acquires := 1, releases := 1, newTaskDoneAt := some 0 }],
      clock := 11 }

end StressTest

namespace StressTest

/-! ## Helper lemmas -/

theorem countP_set_same (p : Driver → Bool) (l : List Driver) (i : Nat)
    (d d' : Driver) (hd : l[i]? = some d) (hp : p d' = p d) :
    (l.set i d').countP p = l.countP p := by
  induction l generalizing i with
  | nil => simp at hd
  | cons a l ih =>
    cases i with
    | zero =>
      simp_all [List.countP_cons]
    | succ n =>
      simp only [List.getElem?_cons_succ] at hd
      simp [List.countP_cons, ih n hd]

theorem countP_set_flip (p : Driver → Bool) (l : List Driver) (i : Nat)
    (d d' : Driver) (hd : l[i]? = some d) (hpd : p d = false) (hpd' : p d' = true) :
    (l.set i d').countP p = l.countP p + 1 := by
  induction l generalizing i with
  | nil => simp at hd
  | cons a l ih =>
    cases i with
    | zero =>
      simp only [List.getElem?_cons_zero, Option.some.injEq] at hd
      subst hd
      simp [List.countP_cons, hpd, hpd']
    | succ n =>
      simp only [List.getElem?_cons_succ] at hd
      simp [List.countP_cons, ih n hd]
      omega

theorem all_arrived_of_full (count : Nat) (l : List Driver) (orch : Bool)
    (hlen : l.length = count)
    (hcnt : l.countP (fun d => d.arrived) + (if orch then 1 else 0) = count + 1) :
    (∀ d ∈ l, d.arrived = true) ∧ orch = true := by
  have hle := List.countP_le_length (fun d => d.arrived) (l := l)
  constructor
  · intro d hdmem
    have hfull : l.countP (fun d => d.arrived) = l.length := by
      cases orch <;> simp at hcnt <;> omega
    simpa using List.countP_eq_length.mp hfull d hdmem
  · cases orch
    · exfalso
      simp at hcnt
      omega
    · rfl

end StressTest

namespace StressTest

/-- Preservation of the invariant by any step of one driver future that
does not touch the barrier: the driver record at index i is replaced and
the semaphore count and OnceCell may change, subject to the side
conditions below. -/
theorem inv_local {count parallel : Nat} {s : RunState} (inv : Inv count parallel s)
    (i : Nat) (d d' : Driver) (h2 : Nat) (st2 : Option Nat)
    (hd : s.drivers[i]? = some d)
    (harr : d'.arrived = d.arrived)
    (horc : d'.oracle = d.oracle)
    (hnt : d'.newTaskDoneAt = d.newTaskDoneAt ∨
      (d.pc = PC.newTask ∧ d'.newTaskDoneAt = some s.clock))
    (hheld : h2 ≤ permits parallel count)
    (hhold : d'.holdsPermit = holdingPC d'.pc)
    (hacq0 : (d'.pc = PC.newTask ∨ d'.pc = PC.preBarrier ∨
      d'.pc = PC.inBarrier ∨ d'.pc = PC.acquire) → d'.acquires = 0)
    (hacq1 : d'.acquires ≤ 1)
    (hacqrel : d'.acquires = d'.releases + (if d'.holdsPermit then 1 else 0))
    (hcon : d'.pc ≠ PC.newTask → d'.pc ≠ PC.done false → d'.oracle.constructOk = true)
    (hnoarr : (d'.pc = PC.newTask ∨ d'.pc = PC.preBarrier) → d'.arrived = false)
    (hpreb : d'.pc = PC.preBarrier → ∃ c, d'.newTaskDoneAt = some c ∧ c < s.clock + 1)
    (hpast : (pastSetup d'.pc = true ∨ d'.pc = PC.done true) → s.released = true)
    (hst : st2 = s.startTime ∨
      (st2 = some (s.startTime.getD s.clock) ∧ pastSetup d.pc = true)) :
    Inv count parallel
      (tick { s with drivers := s.drivers.set i d', held := h2, startTime := st2 }) := by
  have hdm : d ∈ s.drivers := List.getElem?_mem hd
  have hmem : ∀ x, x ∈ (s.drivers.set i d') → x ∈ s.drivers ∨ x = d' :=
    fun x hx => List.mem_or_eq_of_mem_set hx
  refine ⟨?_, ?_, ?_, ?_, ?_, ?_, ?_, ?_, ?_, ?_, ?_, ?_, ?_, ?_, ?_, ?_, ?_, ?_, ?_⟩
  · simpa [tick] using inv.len_eq
  · simpa [tick] using hheld
  · intro x hx
    simp only [tick] at hx
    rcases hmem x hx with hx | rfl
    · exact inv.holding_iff x hx
    · exact hhold
  · intro x hx
    simp only [tick] at hx
    rcases hmem x hx with hx | rfl
    · exact inv.acq_zero x hx
    · exact hacq0
  · intro x hx
    simp only [tick] at hx
    rcases hmem x hx with hx | rfl
    · exact inv.acq_le x hx
    · exact hacq1
  · intro x hx
    simp only [tick] at hx
    rcases hmem x hx with hx | rfl
    · exact inv.acq_rel x hx
    · exact hacqrel
  · have hcp := countP_set_same (fun x => x.arrived) s.drivers i d d' hd (by simpa using harr)
    simpa [tick, hcp] using inv.count_arrived
  · simpa [tick] using inv.released_iff
  · intro x hx
    simp only [tick] at hx
    rcases hmem x hx with hx | rfl
    · exact inv.pc_construct x hx
    · exact hcon
  · intro x hx
    simp only [tick] at hx
    rcases hmem x hx with hx | rfl
    · exact inv.arrived_ok x hx
    · intro ha
      rw [horc]
      exact inv.arrived_ok d hdm (harr ▸ ha)
  · intro x hx
    simp only [tick] at hx
    rcases hmem x hx with hx | rfl
    · intro ha
      obtain ⟨c, hc, hlt⟩ := inv.arrived_time x hx ha
      exact ⟨c, hc, by simp [tick]; omega⟩
    · intro ha
      rcases hnt with hnt | ⟨hdpc, hnt⟩
      · obtain ⟨c, hc, hlt⟩ := inv.arrived_time d hdm (harr ▸ ha)
        exact ⟨c, hnt ▸ hc, by simp [tick]; omega⟩
      · exact ⟨s.clock, hnt, by simp [tick]⟩
  · intro x hx
    simp only [tick] at hx
    rcases hmem x hx with hx | rfl
    · intro hxpc
      obtain ⟨c, hc, hlt⟩ := inv.preBarrier_time x hx hxpc
      exact ⟨c, hc, by simp [tick]; omega⟩
    · intro hxpc
      obtain ⟨c, hc, hlt⟩ := hpreb hxpc
      exact ⟨c, hc, by simp only [tick]; omega⟩
  · intro x hx
    simp only [tick] at hx
    rcases hmem x hx with hx | rfl
    · exact inv.pc_no_arrive x hx
    · exact hnoarr
  · intro x hx
    simp only [tick] at hx
    rcases hmem x hx with hx | rfl
    · intro hp
      simpa [tick] using inv.past_released x hx hp
    · intro hp
      simpa [tick] using hpast hp
  · intro hrel
    simp only [tick] at hrel
    obtain ⟨hall, horch⟩ := inv.released_arrived hrel
    refine ⟨?_, by simpa [tick] using horch⟩
    intro x hx
    simp only [tick] at hx
    rcases hmem x hx with hx | rfl
    · exact hall x hx
    · exact harr ▸ hall d hdm
  · simpa [tick] using inv.releasedAt_some
  · intro r hr
    simp only [tick] at hr ⊢
    have := inv.releasedAt_lt r hr
    omega
  · intro r hr x hx
    simp only [tick] at hr hx
    rcases hmem x hx with hx | rfl
    · exact inv.releasedAt_after r hr x hx
    · rcases hnt with hnt | ⟨hdpc, hnt⟩
      · obtain ⟨c, hc, hlt⟩ := inv.releasedAt_after r hr d hdm
        exact ⟨c, hnt ▸ hc, hlt⟩
      · exfalso
        have hrel : s.released = true := by
          have := inv.releasedAt_some
          rw [hr] at this
          simpa using this.symm
        have hda := (inv.released_arrived hrel).1 d hdm
        have := inv.pc_no_arrive d hdm (Or.inl hdpc)
        rw [this] at hda
        exact Bool.false_ne_true hda
  · intro t ht
    simp only [tick] at ht ⊢
    rcases hst with hst | ⟨hst, hdpast⟩
    · rw [hst] at ht
      obtain ⟨r, hrat, hrt, htc⟩ := inv.startTime_inv t ht
      exact ⟨r, hrat, hrt, by omega⟩
    · rw [hst] at ht
      cases hstime : s.startTime with
      | some t0 =>
        rw [hstime] at ht
        simp at ht
        obtain ⟨r, hrat, hrt, htc⟩ := inv.startTime_inv t0 hstime
        exact ⟨r, hrat, by omega, by omega⟩
      | none =>
        rw [hstime] at ht
        simp at ht
        have hrel : s.released = true := inv.past_released d hdm (Or.inl hdpast)
        have hsome : s.releasedAt.isSome = true := by
          rw [inv.releasedAt_some, hrel]
        cases hra : s.releasedAt with
        | none => rw [hra] at hsome; simp at hsome
        | some r =>
          have hrlt := inv.releasedAt_lt r hra
          exact ⟨r, rfl, by omega, by omega⟩

end StressTest

namespace StressTest

/-- Preservation of the invariant when a driver arrives at the barrier. -/
theorem inv_barrier {count parallel : Nat} {s : RunState} (inv : Inv count parallel s)
    (i : Nat) (d : Driver) (hd : s.drivers[i]? = some d) (hpc : d.pc = PC.preBarrier) :
    Inv count parallel (tick (bumpArrival count { s with
      drivers := s.drivers.set i { d with pc := PC.inBarrier, arrived := true } })) := by
  have hdm := List.getElem?_mem hd
  set d' : Driver := { d with pc := PC.inBarrier, arrived := true } with hdef
  have hdarr : d.arrived = false := inv.pc_no_arrive d hdm (Or.inr hpc)
  have hdhold : d.holdsPermit = false := by
    have h := inv.holding_iff d hdm
    rw [hpc] at h
    simpa [holdingPC] using h
  have hdacq : d.acquires = 0 := inv.acq_zero d hdm (Or.inr (Or.inl hpc))
  have hdrel : d.releases = 0 := by
    have h := inv.acq_rel d hdm
    rw [hdhold, hdacq] at h
    simpa using h.symm
  have hdcon : d.oracle.constructOk = true :=
    inv.pc_construct d hdm (by rw [hpc]; decide) (by rw [hpc]; decide)
  have hdtime := inv.preBarrier_time d hdm hpc
  have hcp : (s.drivers.set i d').countP (fun x => x.arrived) =
      s.drivers.countP (fun x => x.arrived) + 1 :=
    countP_set_flip _ _ _ _ _ hd (by simpa using hdarr) (by simp [hdef])
  have hmem : ∀ x, x ∈ (s.drivers.set i d') → x ∈ s.drivers ∨ x = d' :=
    fun x hx => List.mem_or_eq_of_mem_set hx
  have hne : s.arrivedCount ≠ count + 1 := by
    intro h
    have hrel : s.released = true := by rw [inv.released_iff, h]; simp
    have h2 := (inv.released_arrived hrel).1 d hdm
    rw [hdarr] at h2
    exact Bool.false_ne_true h2
  have hca := inv.count_arrived
  by_cases hfull : s.arrivedCount + 1 = count + 1
  · have hbump : bumpArrival count { s with drivers := s.drivers.set i d' } =
        { s with drivers := s.drivers.set i d', arrivedCount := s.arrivedCount + 1, released := true, releasedAt := some s.clock } := by
      simp [bumpArrival, hfull]
    rw [hbump]
    have hcnt' : (s.drivers.set i d').countP (fun x => x.arrived) +
        (if s.orchArrived then 1 else 0) = count + 1 := by
      rw [hcp]; omega
    have hall := all_arrived_of_full count (s.drivers.set i d') s.orchArrived
      (by rw [List.length_set]; exact inv.len_eq) hcnt'
    have hrelf : s.released = false := by
      rw [inv.released_iff]
      simp [hne]
    refine ⟨?_, ?_, ?_, ?_, ?_, ?_, ?_, ?_, ?_, ?_, ?_, ?_, ?_, ?_, ?_, ?_, ?_, ?_, ?_⟩
    · simpa [tick] using inv.len_eq
    · simpa [tick] using inv.held_le
    · intro x hx
      simp only [tick] at hx
      rcases hmem x hx with hx | rfl
      · exact inv.holding_iff x hx
      · simp [hdef, holdingPC, hdhold]
    · intro x hx
      simp only [tick] at hx
      rcases hmem x hx with hx | rfl
      · exact inv.acq_zero x hx
      · intro _; simp [hdef, hdacq]
    · intro x hx
      simp only [tick] at hx
      rcases hmem x hx with hx | rfl
      · exact inv.acq_le x hx
      · simp [hdef, hdacq]
    · intro x hx
      simp only [tick] at hx
      rcases hmem x hx with hx | rfl
      · exact inv.acq_rel x hx
      · simp [hdef, hdacq, hdrel, hdhold]
    · simp only [tick, hcp]
      omega
    · simp [tick, hfull]
    · intro x hx
      simp only [tick] at hx
      rcases hmem x hx with hx | rfl
      · exact inv.pc_construct x hx
      · intro _ _; simp [hdef, hdcon]
    · intro x hx
      simp only [tick] at hx
      rcases hmem x hx with hx | rfl
      · exact inv.arrived_ok x hx
      · intro _; simp [hdef, hdcon]
    · intro x hx
      simp only [tick] at hx
      rcases hmem x hx with hx | rfl
      · intro ha
        obtain ⟨c, hc, hlt⟩ := inv.arrived_time x hx ha
        exact ⟨c, hc, by simp only [tick]; omega⟩
      · intro _
        obtain ⟨c, hc, hlt⟩ := hdtime
        exact ⟨c, by simp [hdef, hc], by simp only [tick]; omega⟩
    · intro x hx
      simp only [tick] at hx
      rcases hmem x hx with hx | rfl
      · intro hxpc
        obtain ⟨c, hc, hlt⟩ := inv.preBarrier_time x hx hxpc
        exact ⟨c, hc, by simp only [tick]; omega⟩
      · intro hxpc
        rw [hdef] at hxpc
        simp at hxpc
    · intro x hx
      simp only [tick] at hx
      rcases hmem x hx with hx | rfl
      · exact inv.pc_no_arrive x hx
      · intro hxpc
        rw [hdef] at hxpc
        simp at hxpc
    · intro x hx _
      simp [tick]
    · intro _
      refine ⟨?_, by simpa [tick] using hall.2⟩
      intro x hx
      simp only [tick] at hx
      exact hall.1 x hx
    · simp [tick]
    · intro r hr
      simp only [tick, Option.some.injEq] at hr
      simp only [tick]
      omega
    · intro r hr x hx
      simp only [tick, Option.some.injEq] at hr hx
      have hxarr := hall.1 x hx
      rcases hmem x hx with hxold | rfl
      · obtain ⟨c, hc, hlt⟩ := inv.arrived_time x hxold hxarr
        exact ⟨c, hc, by omega⟩
      · obtain ⟨c, hc, hlt⟩ := hdtime
        exact ⟨c, by simp [hdef, hc], by omega⟩
    · intro t ht
      simp only [tick] at ht
      exfalso
      obtain ⟨r, hra, _, _⟩ := inv.startTime_inv t ht
      have hsome : s.releasedAt.isSome = true := by rw [hra]; rfl
      rw [inv.releasedAt_some, hrelf] at hsome
      exact Bool.false_ne_true hsome
  · have hbump : bumpArrival count { s with drivers := s.drivers.set i d' } =
        { s with drivers := s.drivers.set i d', arrivedCount := s.arrivedCount + 1 } := by
      simp [bumpArrival, hfull]
    rw [hbump]
    have hrelf : s.released = false := by
      rw [inv.released_iff]
      simp [hne]
    refine ⟨?_, ?_, ?_, ?_, ?_, ?_, ?_, ?_, ?_, ?_, ?_, ?_, ?_, ?_, ?_, ?_, ?_, ?_, ?_⟩
    · simpa [tick] using inv.len_eq
    · simpa [tick] using inv.held_le
    · intro x hx
      simp only [tick] at hx
      rcases hmem x hx with hx | rfl
      · exact inv.holding_iff x hx
      · simp [hdef, holdingPC, hdhold]
    · intro x hx
      simp only [tick] at hx
      rcases hmem x hx with hx | rfl
      · exact inv.acq_zero x hx
      · intro _; simp [hdef, hdacq]
    · intro x hx
      simp only [tick] at hx
      rcases hmem x hx with hx | rfl
      · exact inv.acq_le x hx
      · simp [hdef, hdacq]
    · intro x hx
      simp only [tick] at hx
      rcases hmem x hx with hx | rfl
      · exact inv.acq_rel x hx
      · simp [hdef, hdacq, hdrel, hdhold]
    · simp only [tick, hcp]
      omega
    · have hd2 : (s.arrivedCount + 1 = count + 1) = False := by simp [hfull]
      simp [tick, hrelf, hfull]
    · intro x hx
      simp only [tick] at hx
      rcases hmem x hx with hx | rfl
      · exact inv.pc_construct x hx
      · intro _ _; simp [hdef, hdcon]
    · intro x hx
      simp only [tick] at hx
      rcases hmem x hx with hx | rfl
      · exact inv.arrived_ok x hx
      · intro _; simp [hdef, hdcon]
    · intro x hx
      simp only [tick] at hx
      rcases hmem x hx with hx | rfl
      · intro ha
        obtain ⟨c, hc, hlt⟩ := inv.arrived_time x hx ha
        exact ⟨c, hc, by simp only [tick]; omega⟩
      · intro _
        obtain ⟨c, hc, hlt⟩ := hdtime
        exact ⟨c, by simp [hdef, hc], by simp only [tick]; omega⟩
    · intro x hx
      simp only [tick] at hx
      rcases hmem x hx with hx | rfl
      · intro hxpc
        obtain ⟨c, hc, hlt⟩ := inv.preBarrier_time x hx hxpc
        exact ⟨c, hc, by simp only [tick]; omega⟩
      · intro hxpc
        rw [hdef] at hxpc
        simp at hxpc
    · intro x hx
      simp only [tick] at hx
      rcases hmem x hx with hx | rfl
      · exact inv.pc_no_arrive x hx
      · intro hxpc
        rw [hdef] at hxpc
        simp at hxpc
    · intro x hx hp
      simp only [tick]
      rcases hmem x hx with hxold | rfl
      · have := inv.past_released x hxold hp
        rw [hrelf] at this
        exact absurd this Bool.false_ne_true
      · rw [hdef] at hp
        simp [pastSetup] at hp
    · intro h
      simp only [tick] at h
      rw [hrelf] at h
      exact absurd h Bool.false_ne_true
    · simpa [tick] using inv.releasedAt_some
    · intro r hr
      simp only [tick] at hr
      simp only [tick]
      have := inv.releasedAt_lt r hr
      omega
    · intro r hr x hx
      simp only [tick] at hr hx
      rcases hmem x hx with hxold | rfl
      · exact inv.releasedAt_after r hr x hxold
      · obtain ⟨c, hc, hlt⟩ := inv.releasedAt_after r hr d hdm
        exact ⟨c, by simp [hdef, hc], hlt⟩
    · intro t ht
      simp only [tick] at ht ⊢
      obtain ⟨r, hra, hrt, htc⟩ := inv.startTime_inv t ht
      exact ⟨r, hra, hrt, by omega⟩

end StressTest

namespace StressTest

/-- Preservation of the invariant when the orchestrator arrives at the
barrier (main.rs line 158). -/
theorem inv_orch {count parallel : Nat} {s : RunState} (inv : Inv count parallel s)
    (horch : s.orchArrived = false) :
    Inv count parallel (tick (bumpArrival count { s with orchArrived := true })) := by
  have hca := inv.count_arrived
  have hne : s.arrivedCount ≠ count + 1 := by
    intro h
    have hrel : s.released = true := by rw [inv.released_iff, h]; simp
    have h2 := (inv.released_arrived hrel).2
    rw [horch] at h2
    exact Bool.false_ne_true h2
  by_cases hfull : s.arrivedCount + 1 = count + 1
  · have hbump : bumpArrival count { s with orchArrived := true } =
        { s with orchArrived := true, arrivedCount := s.arrivedCount + 1, released := true, releasedAt := some s.clock } := by
      simp [bumpArrival, hfull]
    rw [hbump]
    have hcntp : s.drivers.countP (fun x => x.arrived) = s.drivers.length := by
      rw [horch] at hca
      simp at hca
      rw [inv.len_eq]
      omega
    have hall : ∀ x ∈ s.drivers, x.arrived = true := by
      intro x hx
      simpa using List.countP_eq_length.mp hcntp x hx
    have hrelf : s.released = false := by
      rw [inv.released_iff]
      simp [hne]
    refine ⟨?_, ?_, ?_, ?_, ?_, ?_, ?_, ?_, ?_, ?_, ?_, ?_, ?_, ?_, ?_, ?_, ?_, ?_, ?_⟩
    · simpa [tick] using inv.len_eq
    · simpa [tick] using inv.held_le
    · intro x hx
      simp only [tick] at hx
      exact inv.holding_iff x hx
    · intro x hx
      simp only [tick] at hx
      exact inv.acq_zero x hx
    · intro x hx
      simp only [tick] at hx
      exact inv.acq_le x hx
    · intro x hx
      simp only [tick] at hx
      exact inv.acq_rel x hx
    · simp only [tick]
      rw [horch] at hca
      simp at hca
      simp [hca]
    · simp [tick, hfull]
    · intro x hx
      simp only [tick] at hx
      exact inv.pc_construct x hx
    · intro x hx
      simp only [tick] at hx
      exact inv.arrived_ok x hx
    · intro x hx
      simp only [tick] at hx
      intro ha
      obtain ⟨c, hc, hlt⟩ := inv.arrived_time x hx ha
      exact ⟨c, hc, by simp only [tick]; omega⟩
    · intro x hx
      simp only [tick] at hx
      intro hxpc
      obtain ⟨c, hc, hlt⟩ := inv.preBarrier_time x hx hxpc
      exact ⟨c, hc, by simp only [tick]; omega⟩
    · intro x hx
      simp only [tick] at hx
      exact inv.pc_no_arrive x hx
    · intro x hx _
      simp [tick]
    · intro _
      refine ⟨?_, by simp [tick]⟩
      intro x hx
      simp only [tick] at hx
      exact hall x hx
    · simp [tick]
    · intro r hr
      simp only [tick, Option.some.injEq] at hr
      simp only [tick]
      omega
    · intro r hr x hx
      simp only [tick, Option.some.injEq] at hr hx
      obtain ⟨c, hc, hlt⟩ := inv.arrived_time x hx (hall x hx)
      exact ⟨c, hc, by omega⟩
    · intro t ht
      simp only [tick] at ht
      exfalso
      obtain ⟨r, hra, _, _⟩ := inv.startTime_inv t ht
      have hsome : s.releasedAt.isSome = true := by rw [hra]; rfl
      rw [inv.releasedAt_some, hrelf] at hsome
      exact Bool.false_ne_true hsome
  · have hbump : bumpArrival count { s with orchArrived := true } =
        { s with orchArrived := true, arrivedCount := s.arrivedCount + 1 } := by
      simp [bumpArrival, hfull]
    rw [hbump]
    have hrelf : s.released = false := by
      rw [inv.released_iff]
      simp [hne]
    refine ⟨?_, ?_, ?_, ?_, ?_, ?_, ?_, ?_, ?_, ?_, ?_, ?_, ?_, ?_, ?_, ?_, ?_, ?_, ?_⟩
    · simpa [tick] using inv.len_eq
    · simpa [tick] using inv.held_le
    · intro x hx
      simp only [tick] at hx
      exact inv.holding_iff x hx
    · intro x hx
      simp only [tick] at hx
      exact inv.acq_zero x hx
    · intro x hx
      simp only [tick] at hx
      exact inv.acq_le x hx
    · intro x hx
      simp only [tick] at hx
      exact inv.acq_rel x hx
    · simp only [tick]
      rw [horch] at hca
      simp at hca
      simp [hca]
    · simp [tick, hrelf, hfull]
    · intro x hx
      simp only [tick] at hx
      exact inv.pc_construct x hx
    · intro x hx
      simp only [tick] at hx
      exact inv.arrived_ok x hx
    · intro x hx
      simp only [tick] at hx
      intro ha
      obtain ⟨c, hc, hlt⟩ := inv.arrived_time x hx ha
      exact ⟨c, hc, by simp only [tick]; omega⟩
    · intro x hx
      simp only [tick] at hx
      intro hxpc
      obtain ⟨c, hc, hlt⟩ := inv.preBarrier_time x hx hxpc
      exact ⟨c, hc, by simp only [tick]; omega⟩
    · intro x hx
      simp only [tick] at hx
      exact inv.pc_no_arrive x hx
    · intro x hx hp
      simp only [tick]
      have := inv.past_released x hx hp
      rw [hrelf] at this
      exact absurd this Bool.false_ne_true
    · intro h
      simp only [tick] at h
      rw [hrelf] at h
      exact absurd h Bool.false_ne_true
    · simpa [tick] using inv.releasedAt_some
    · intro r hr
      simp only [tick] at hr
      simp only [tick]
      have := inv.releasedAt_lt r hr
      omega
    · intro r hr x hx
      simp only [tick] at hr hx
      exact inv.releasedAt_after r hr x hx
    · intro t ht
      simp only [tick] at ht ⊢
      obtain ⟨r, hra, hrt, htc⟩ := inv.startTime_inv t ht
      exact ⟨r, hra, hrt, by omega⟩

end StressTest

namespace StressTest

/-- The invariant is preserved by every step of the machine. -/
theorem inv_step {count parallel : Nat} {s s' : RunState}
    (inv : Inv count parallel s) (st : Step count parallel s s') :
    Inv count parallel s' := by
  cases st with
  | newTask_ok i d hd hpc ho hs =>
    subst hs
    have hdm := List.getElem?_mem hd
    refine inv_local inv i d _ s.held s.startTime hd rfl rfl (Or.inr ⟨hpc, rfl⟩)
      inv.held_le ?_ ?_ ?_ ?_ ?_ ?_ ?_ ?_ (Or.inl rfl)
    · have h := inv.holding_iff d hdm
      rw [hpc] at h
      simpa [holdingPC] using h
    · intro _
      simpa using inv.acq_zero d hdm (Or.inl hpc)
    · simpa using inv.acq_le d hdm
    · simpa using inv.acq_rel d hdm
    · intro _ _
      simpa using ho
    · intro _
      simpa using inv.pc_no_arrive d hdm (Or.inl hpc)
    · intro _
      exact ⟨s.clock, rfl, Nat.lt_succ_self _⟩
    · intro h
      simp [pastSetup] at h
  | newTask_err i d hd hpc ho hs =>
    subst hs
    have hdm := List.getElem?_mem hd
    refine inv_local inv i d _ s.held s.startTime hd rfl rfl (Or.inl rfl)
      inv.held_le ?_ ?_ ?_ ?_ ?_ ?_ ?_ ?_ (Or.inl rfl)
    · have h := inv.holding_iff d hdm
      rw [hpc] at h
      simpa [holdingPC] using h
    · intro h
      simp at h
    · simpa using inv.acq_le d hdm
    · simpa using inv.acq_rel d hdm
    · intro _ h
      exact absurd rfl h
    · intro h
      simp at h
    · intro h
      simp at h
    · intro h
      simp [pastSetup] at h
  | barrier_arrive i d hd hpc hs =>
    subst hs
    exact inv_barrier inv i d hd hpc
  | barrier_pass i d hd hpc hrel hs =>
    subst hs
    have hdm := List.getElem?_mem hd
    refine inv_local inv i d _ s.held s.startTime hd rfl rfl (Or.inl rfl)
      inv.held_le ?_ ?_ ?_ ?_ ?_ ?_ ?_ ?_ (Or.inl rfl)
    · have h := inv.holding_iff d hdm
      rw [hpc] at h
      simpa [holdingPC] using h
    · intro _
      simpa using inv.acq_zero d hdm (Or.inr (Or.inr (Or.inl hpc)))
    · simpa using inv.acq_le d hdm
    · simpa using inv.acq_rel d hdm
    · intro _ _
      simpa using inv.pc_construct d hdm (by rw [hpc]; decide) (by rw [hpc]; decide)
    · intro h
      simp at h
    · intro h
      simp at h
    · intro _
      exact hrel
  | acquirePermit i d hd hpc hcap hs =>
    subst hs
    have hdm := List.getElem?_mem hd
    have hdacq : d.acquires = 0 := inv.acq_zero d hdm (Or.inr (Or.inr (Or.inr hpc)))
    have hdhold : d.holdsPermit = false := by
      have h := inv.holding_iff d hdm
      rw [hpc] at h
      simpa [holdingPC] using h
    have hdrel : d.releases = 0 := by
      have h := inv.acq_rel d hdm
      rw [hdhold, hdacq] at h
      simpa using h.symm
    refine inv_local inv i d _ (s.held + 1) s.startTime hd rfl rfl (Or.inl rfl)
      (by omega) ?_ ?_ ?_ ?_ ?_ ?_ ?_ ?_ (Or.inl rfl)
    · simp [holdingPC]
    · intro h
      simp at h
    · simp [hdacq]
    · simp [hdacq, hdrel]
    · intro _ _
      simpa using inv.pc_construct d hdm (by rw [hpc]; decide) (by rw [hpc]; decide)
    · intro h
      simp at h
    · intro h
      simp at h
    · intro _
      exact inv.past_released d hdm (Or.inl (by rw [hpc]; rfl))
  | setStartCell i d hd hpc hs =>
    subst hs
    have hdm := List.getElem?_mem hd
    refine inv_local inv i d _ s.held (some (s.startTime.getD s.clock)) hd rfl rfl
      (Or.inl rfl) inv.held_le ?_ ?_ ?_ ?_ ?_ ?_ ?_ ?_ (Or.inr ⟨rfl, by rw [hpc]; rfl⟩)
    · have h := inv.holding_iff d hdm
      rw [hpc] at h
      simpa [holdingPC] using h
    · intro h
      simp at h
    · simpa using inv.acq_le d hdm
    · simpa using inv.acq_rel d hdm
    · intro _ _
      simpa using inv.pc_construct d hdm (by rw [hpc]; decide) (by rw [hpc]; decide)
    · intro h
      simp at h
    · intro h
      simp at h
    · intro _
      exact inv.past_released d hdm (Or.inl (by rw [hpc]; rfl))
  | create_ok i d hd hpc ho hs =>
    subst hs
    have hdm := List.getElem?_mem hd
    refine inv_local inv i d _ s.held s.startTime hd rfl rfl (Or.inl rfl)
      inv.held_le ?_ ?_ ?_ ?_ ?_ ?_ ?_ ?_ (Or.inl rfl)
    · have h := inv.holding_iff d hdm
      rw [hpc] at h
      simpa [holdingPC] using h
    · intro h
      simp at h
    · simpa using inv.acq_le d hdm
    · simpa using inv.acq_rel d hdm
    · intro _ _
      simpa using inv.pc_construct d hdm (by rw [hpc]; decide) (by rw [hpc]; decide)
    · intro h
      simp at h
    · intro h
      simp at h
    · intro _
      exact inv.past_released d hdm (Or.inl (by rw [hpc]; rfl))
  | create_err i d hd hpc ho hs =>
    subst hs
    have hdm := List.getElem?_mem hd
    have hdhold : d.holdsPermit = true := by
      have h := inv.holding_iff d hdm
      rw [hpc] at h
      simpa [holdingPC] using h
    have hdacq : d.acquires = d.releases + 1 := by
      have h := inv.acq_rel d hdm
      rw [hdhold] at h
      simpa using h
    refine inv_local inv i d _ (s.held - 1) s.startTime hd rfl rfl (Or.inl rfl)
      (by have := inv.held_le; omega) ?_ ?_ ?_ ?_ ?_ ?_ ?_ ?_ (Or.inl rfl)
    · simp [holdingPC]
    · intro h
      simp at h
    · simpa using inv.acq_le d hdm
    · simp [hdacq]
    · intro _ h
      exact absurd rfl h
    · intro h
      simp at h
    · intro h
      simp at h
    · intro h
      simp [pastSetup] at h
  | start_ok i d hd hpc ho hs =>
    subst hs
    have hdm := List.getElem?_mem hd
    refine inv_local inv i d _ s.held s.startTime hd rfl rfl (Or.inl rfl)
      inv.held_le ?_ ?_ ?_ ?_ ?_ ?_ ?_ ?_ (Or.inl rfl)
    · have h := inv.holding_iff d hdm
      rw [hpc] at h
      simpa [holdingPC] using h
    · intro h
      simp at h
    · simpa using inv.acq_le d hdm
    · simpa using inv.acq_rel d hdm
    · intro _ _
      simpa using inv.pc_construct d hdm (by rw [hpc]; decide) (by rw [hpc]; decide)
    · intro h
      simp at h
    · intro h
      simp at h
    · intro _
      exact inv.past_released d hdm (Or.inl (by rw [hpc]; rfl))
  | start_err i d hd hpc ho hs =>
    subst hs
    have hdm := List.getElem?_mem hd
    have hdhold : d.holdsPermit = true := by
      have h := inv.holding_iff d hdm
      rw [hpc] at h
      simpa [holdingPC] using h
    have hdacq : d.acquires = d.releases + 1 := by
      have h := inv.acq_rel d hdm
      rw [hdhold] at h
      simpa using h
    refine inv_local inv i d _ (s.held - 1) s.startTime hd rfl rfl (Or.inl rfl)
      (by have := inv.held_le; omega) ?_ ?_ ?_ ?_ ?_ ?_ ?_ ?_ (Or.inl rfl)
    · simp [holdingPC]
    · intro h
      simp at h
    · simpa using inv.acq_le d hdm
    · simp [hdacq]
    · intro _ h
      exact absurd rfl h
    · intro h
      simp at h
    · intro h
      simp at h
    · intro h
      simp [pastSetup] at h
  | dropPermitStep i d hd hpc hs =>
    subst hs
    have hdm := List.getElem?_mem hd
    have hdhold : d.holdsPermit = true := by
      have h := inv.holding_iff d hdm
      rw [hpc] at h
      simpa [holdingPC] using h
    have hdacq : d.acquires = d.releases + 1 := by
      have h := inv.acq_rel d hdm
      rw [hdhold] at h
      simpa using h
    refine inv_local inv i d _ (s.held - 1) s.startTime hd rfl rfl (Or.inl rfl)
      (by have := inv.held_le; omega) ?_ ?_ ?_ ?_ ?_ ?_ ?_ ?_ (Or.inl rfl)
    · simp [holdingPC]
    · intro h
      simp at h
    · simpa using inv.acq_le d hdm
    · simp [hdacq]
    · intro _ _
      simpa using inv.pc_construct d hdm (by rw [hpc]; decide) (by rw [hpc]; decide)
    · intro h
      simp at h
    · intro h
      simp at h
    · intro _
      exact inv.past_released d hdm (Or.inl (by rw [hpc]; rfl))
  | wait_ok i d hd hpc ho hs =>
    subst hs
    have hdm := List.getElem?_mem hd
    refine inv_local inv i d _ s.held s.startTime hd rfl rfl (Or.inl rfl)
      inv.held_le ?_ ?_ ?_ ?_ ?_ ?_ ?_ ?_ (Or.inl rfl)
    · have h := inv.holding_iff d hdm
      rw [hpc] at h
      simpa [holdingPC] using h
    · intro h
      simp at h
    · simpa using inv.acq_le d hdm
    · simpa using inv.acq_rel d hdm
    · intro _ _
      simpa using inv.pc_construct d hdm (by rw [hpc]; decide) (by rw [hpc]; decide)
    · intro h
      simp at h
    · intro h
      simp at h
    · intro _
      exact inv.past_released d hdm (Or.inl (by rw [hpc]; rfl))
  | wait_err i d hd hpc ho hs =>
    subst hs
    have hdm := List.getElem?_mem hd
    refine inv_local inv i d _ s.held s.startTime hd rfl rfl (Or.inl rfl)
      inv.held_le ?_ ?_ ?_ ?_ ?_ ?_ ?_ ?_ (Or.inl rfl)
    · have h := inv.holding_iff d hdm
      rw [hpc] at h
      simpa [holdingPC] using h
    · intro h
      simp at h
    · simpa using inv.acq_le d hdm
    · simpa using inv.acq_rel d hdm
    · intro _ h
      exact absurd rfl h
    · intro h
      simp at h
    · intro h
      simp at h
    · intro h
      simp [pastSetup] at h
  | delete_ok i d hd hpc ho hs =>
    subst hs
    have hdm := List.getElem?_mem hd
    refine inv_local inv i d _ s.held s.startTime hd rfl rfl (Or.inl rfl)
      inv.held_le ?_ ?_ ?_ ?_ ?_ ?_ ?_ ?_ (Or.inl rfl)
    · have h := inv.holding_iff d hdm
      rw [hpc] at h
      simpa [holdingPC] using h
    · intro h
      simp at h
    · simpa using inv.acq_le d hdm
    · simpa using inv.acq_rel d hdm
    · intro _ _
      simpa using inv.pc_construct d hdm (by rw [hpc]; decide) (by rw [hpc]; decide)
    · intro h
      simp at h
    · intro h
      simp at h
    · intro _
      exact inv.past_released d hdm (Or.inl (by rw [hpc]; rfl))
  | delete_err i d hd hpc ho hs =>
    subst hs
    have hdm := List.getElem?_mem hd
    refine inv_local inv i d _ s.held s.startTime hd rfl rfl (Or.inl rfl)
      inv.held_le ?_ ?_ ?_ ?_ ?_ ?_ ?_ ?_ (Or.inl rfl)
    · have h := inv.holding_iff d hdm
      rw [hpc] at h
      simpa [holdingPC] using h
    · intro h
      simp at h
    · simpa using inv.acq_le d hdm
    · simpa using inv.acq_rel d hdm
    · intro _ h
      exact absurd rfl h
    · intro h
      simp at h
    · intro h
      simp at h
    · intro h
      simp [pastSetup] at h
  | orchArrive horch hs =>
    subst hs
    exact inv_orch inv horch

end StressTest

namespace StressTest

/-- The invariant holds in the initial state. -/
theorem inv_init (os : List Oracle) (parallel : Nat) :
    Inv os.length parallel (initState os) := by
  have hmem : ∀ d ∈ (initState os).drivers, ∃ o, d = Driver.fresh o := by
    intro d hd
    simp [initState] at hd
    obtain ⟨o, _, rfl⟩ := hd
    exact ⟨o, rfl⟩
  refine ⟨?_, ?_, ?_, ?_, ?_, ?_, ?_, ?_, ?_, ?_, ?_, ?_, ?_, ?_, ?_, ?_, ?_, ?_, ?_⟩
  · simp [initState]
  · exact Nat.zero_le _
  · intro d hd
    obtain ⟨o, rfl⟩ := hmem d hd
    rfl
  · intro d hd _
    obtain ⟨o, rfl⟩ := hmem d hd
    rfl
  · intro d hd
    obtain ⟨o, rfl⟩ := hmem d hd
    exact Nat.zero_le _
  · intro d hd
    obtain ⟨o, rfl⟩ := hmem d hd
    rfl
  · have hcomp : ((fun (d : Driver) => d.arrived) ∘ Driver.fresh) = (fun _ => false) := rfl
    simp [initState, hcomp]
  · simp [initState]
  · intro d hd h1 h2
    obtain ⟨o, rfl⟩ := hmem d hd
    exact absurd rfl h1
  · intro d hd h
    obtain ⟨o, rfl⟩ := hmem d hd
    simp [Driver.fresh] at h
  · intro d hd h
    obtain ⟨o, rfl⟩ := hmem d hd
    simp [Driver.fresh] at h
  · intro d hd h
    obtain ⟨o, rfl⟩ := hmem d hd
    simp [Driver.fresh] at h
  · intro d hd _
    obtain ⟨o, rfl⟩ := hmem d hd
    rfl
  · intro d hd h
    obtain ⟨o, rfl⟩ := hmem d hd
    simp [Driver.fresh, pastSetup] at h
  · intro h
    simp [initState] at h
  · rfl
  · intro r hr
    simp [initState] at hr
  · intro r hr
    simp [initState] at hr
  · intro t ht
    simp [initState] at ht

/-- Every reachable state satisfies the invariant. -/
theorem inv_reach {os : List Oracle} {parallel : Nat} {s : RunState}
    (h : Reach os parallel s) : Inv os.length parallel s := by
  induction h with
  | refl => exact inv_init os parallel
  | step s s2 hr hst ih => exact inv_step ih hst

end StressTest

namespace StressTest

/-- The state c1s1 is reachable: driver 0 runs its failing shim.task call
as its first and only step. -/
theorem reach_c1s1 : Reach c1oracles 1 c1s1 :=
  Reach.step _ _ Reach.refl
    (Step.newTask_err _ _ 0 (Driver.fresh { allOk with constructOk := false })
      (by decide) (by decide) (by decide) (by decide))

/-- The state w11 is reachable: the full fault-free lifecycle of a single
driver, interleaved with the orchestrator. -/
theorem reach_w11 : Reach wOs 1 w11 := by
  have h0 : Reach wOs 1 (initState wOs) := Reach.refl
  have h1 : Reach wOs 1 w1 := Reach.step _ _ h0
    (Step.newTask_ok _ _ 0 (Driver.fresh allOk) (by decide) (by decide) (by decide) (by decide))
  have h2 : Reach wOs 1 w2 := Reach.step _ _ h1
    (Step.orchArrive _ _ (by decide) (by decide))
  have h3 : Reach wOs 1 w3 := Reach.step _ _ h2
    (Step.barrier_arrive _ _ 0 { Driver.fresh allOk with pc := PC.preBarrier, newTaskDoneAt := some 0 }
      (by decide) (by decide) (by decide))
  have h4 : Reach wOs 1 w4 := Reach.step _ _ h3
    (Step.barrier_pass _ _ 0 { Driver.fresh allOk with pc := PC.inBarrier, arrived := true, newTaskDoneAt := some 0 }
      (by decide) (by decide) (by decide) (by decide))
  have h5 : Reach wOs 1 w5 := Reach.step _ _ h4
    (Step.acquirePermit _ _ 0 { Driver.fresh allOk with pc := PC.acquire, arrived := true, newTaskDoneAt := some 0 }
      (by decide) (by decide) (by decide) (by decide))
  have h6 : Reach wOs 1 w6 := Reach.step _ _ h5
    (Step.setStartCell _ _ 0 { Driver.fresh allOk with pc := PC.setStart, arrived := true, holdsPermit := true, acquires := 1, newTaskDoneAt := some 0 }
      (by decide) (by decide) (by decide))
  have h7 : Reach wOs 1 w7 := Reach.step _ _ h6
    (Step.create_ok _ _ 0 { Driver.fresh allOk with pc := PC.create, arrived := true, holdsPermit := true, acquires := 1, newTaskDoneAt := some 0 }
      (by decide) (by decide) (by decide) (by decide))
  have h8 : Reach wOs 1 w8 := Reach.step _ _ h7
    (Step.start_ok _ _ 0 { Driver.fresh allOk with pc := PC.start, arrived := true, holdsPermit := true, acquires := 1, newTaskDoneAt := some 0 }
      (by decide) (by decide) (by decide) (by decide))
  have h9 : Reach wOs 1 w9 := Reach.step _ _ h8
    (Step.dropPermitStep _ _ 0 { Driver.fresh allOk with pc := PC.dropPermit, arrived := true, holdsPermit := true, acquires := 1, newTaskDoneAt := some 0 }
      (by decide) (by decide) (by decide))
  have h10 : Reach wOs 1 w10 := Reach.step _ _ h9
    (Step.wait_ok _ _ 0 { Driver.fresh allOk with pc := PC.wait, arrived := true, acquires := 1, releases := 1, newTaskDoneAt := some 0 }
      (by decide) (by decide) (by decide) (by decide))
  exact Reach.step _ _ h10
    (Step.delete_ok _ _ 0 { Driver.fresh allOk with pc := PC.delete, arrived := true, acquires := 1, releases := 1, newTaskDoneAt := some 0 }
      (by decide) (by decide) (by decide) (by decide))

end StressTest

namespace StressTest

/-- Counter bookkeeping of the loop: over any admissible event sequence,
success + failed equals the number of outcomes seen, and incomplete is
the rest of the count. -/
theorem runLoop_counts {timeout count : Nat} {flag : Bool} {seen : Nat} {evs : List Event}
    (hv : ValidEvents timeout count flag seen evs) :
    ∀ s : LoopState, s.setupDone = flag →
    s.success + s.failed = seen → s.incomplete = count - seen → seen ≤ count →
    ((runLoop s evs).1.success + (runLoop s evs).1.failed + (runLoop s evs).1.incomplete = count ∧
     (runLoop s evs).1.incomplete = count - ((runLoop s evs).1.success + (runLoop s evs).1.failed)) := by
  induction hv with
  | nil flag seen =>
    intro s hf h1 h2 h3
    simp only [runLoop]
    omega
  | setup seen evs h ih =>
    intro s hf h1 h2 h3
    simp only [runLoop, stopOf, applyEv]
    exact ih { s with setupDone := true } rfl h1 h2 h3
  | fire seen evs hw h ih =>
    intro s hf h1 h2 h3
    simp only [runLoop, stopOf]
    omega
  | intr flag seen evs h ih =>
    intro s hf h1 h2 h3
    simp only [runLoop, stopOf]
    omega
  | res flag seen ok evs hseen h ih =>
    intro s hf h1 h2 h3
    cases ok with
    | true =>
      simp only [runLoop, stopOf, applyEv]
      exact ih _ hf (by simp; omega) (by simp; omega) (by omega)
    | false =>
      simp only [runLoop, stopOf, applyEv]
      exact ih _ hf (by simp; omega) (by simp; omega) (by omega)
  | drain flag evs h ih =>
    intro s hf h1 h2 h3
    simp only [runLoop, stopOf]
    omega

/-- The watchdog arm can only stop the loop after the setup_done future
has terminated and when the watchdog can fire at all. -/
theorem runLoop_timeout {timeout count : Nat} {flag : Bool} {seen : Nat} {evs : List Event}
    (hv : ValidEvents timeout count flag seen evs) :
    ∀ s : LoopState, s.setupDone = flag →
    (runLoop s evs).2 = some StopReason.timeout →
    (runLoop s evs).1.setupDone = true ∧ timeout ≠ 0 := by
  induction hv with
  | nil flag seen =>
    intro s hf hstop
    simp [runLoop] at hstop
  | setup seen evs h ih =>
    intro s hf hstop
    simp only [runLoop, stopOf, applyEv] at hstop ⊢
    exact ih { s with setupDone := true } rfl hstop
  | fire seen evs hw h ih =>
    intro s hf hstop
    simp only [runLoop, stopOf] at hstop ⊢
    refine ⟨hf, ?_⟩
    simp [watchdogCanFire] at hw
    exact hw
  | intr flag seen evs h ih =>
    intro s hf hstop
    simp [runLoop, stopOf] at hstop
  | res flag seen ok evs hseen h ih =>
    intro s hf hstop
    cases ok with
    | true =>
      simp only [runLoop, stopOf, applyEv] at hstop ⊢
      exact ih _ hf hstop
    | false =>
      simp only [runLoop, stopOf, applyEv] at hstop ⊢
      exact ih _ hf hstop
  | drain flag evs h ih =>
    intro s hf hstop
    simp [runLoop, stopOf] at hstop

/-- The loop exits with reason r exactly when the first breaking event of
the sequence has that reason; non-breaking events (in particular every
driver outcome) never stop it. -/
theorem runLoop_stop_decomp (evs : List Event) :
    ∀ (s : LoopState) (r : StopReason),
    (runLoop s evs).2 = some r ↔
    ∃ pre e post, evs = pre ++ e :: post ∧
      (∀ x ∈ pre, stopOf x = none) ∧ stopOf e = some r := by
  induction evs with
  | nil =>
    intro s r
    simp only [runLoop]
    constructor
    · intro h
      cases h
    · rintro ⟨pre, e, post, heq, _, _⟩
      exact absurd heq (by simp)
  | cons e es ih =>
    intro s r
    cases hstop : stopOf e with
    | some r0 =>
      constructor
      · intro h
        simp only [runLoop, hstop] at h
        refine ⟨[], e, es, rfl, by simp, ?_⟩
        rw [hstop]
        exact h
      · rintro ⟨pre, e', post, heq, hpre, he'⟩
        cases pre with
        | nil =>
          simp only [List.nil_append, List.cons.injEq] at heq
          obtain ⟨rfl, rfl⟩ := heq
          simp only [runLoop, hstop]
          rw [hstop] at he'
          exact he'
        | cons x pre' =>
          simp only [List.cons_append, List.cons.injEq] at heq
          obtain ⟨rfl, heq⟩ := heq
          have hx := hpre e (by simp)
          rw [hstop] at hx
          cases hx
    | none =>
      have hrl : runLoop s (e :: es) = runLoop (applyEv s e) es := by
        simp only [runLoop, hstop]
      rw [hrl, ih]
      constructor
      · rintro ⟨pre, e', post, heq, hpre, he'⟩
        refine ⟨e :: pre, e', post, by rw [heq]; rfl, ?_, he'⟩
        intro x hx
        rcases List.mem_cons.mp hx with rfl | hx
        · exact hstop
        · exact hpre x hx
      · rintro ⟨pre, e', post, heq, hpre, he'⟩
        cases pre with
        | nil =>
          simp only [List.nil_append, List.cons.injEq] at heq
          obtain ⟨rfl, rfl⟩ := heq
          rw [hstop] at he'
          cases he'
        | cons x pre' =>
          simp only [List.cons_append, List.cons.injEq] at heq
          obtain ⟨rfl, heq⟩ := heq
          exact ⟨pre', e', post, heq, fun y hy => hpre y (by simp [hy]), he'⟩

end StressTest

namespace StressTest

/-- Claim C1, counterexample: in a run of two drivers where driver 0
fails its task-construction (shim.task) call, the reachable state c1s1
has driver 0 already resolved to its Fail outcome (pc = done false)
while its arrived flag is still false and the barrier has not released:
the driver did NOT count as arrived at the Setup Barrier before
reporting its failure, contradicting the claim. -/
theorem c1_create_fail_without_arrival_cex :
    Reach c1oracles 1 c1s1 ∧
    c1s1.drivers.map Driver.pc = [PC.done false, PC.newTask] ∧
    c1s1.drivers.map Driver.arrived = [false, false] ∧
    c1s1.released = false :=
  ⟨reach_c1s1, by decide, by decide, rfl⟩

/-- Claim C1, amended: a driver whose task-construction call fails
reports its Fail outcome without ever arriving at the Setup Barrier; the
barrier (count + 1 parties) therefore never releases in that run, and no
driver ever proceeds past setup. -/
theorem c1_create_failure_blocks_barrier (os : List Oracle) (parallel : Nat)
    (s : RunState) (h : Reach os parallel s) :
    ∀ d ∈ s.drivers, d.oracle.constructOk = false →
      d.arrived = false ∧ s.released = false ∧
      ∀ x ∈ s.drivers, pastSetup x.pc = false := by
  intro d hdm hc
  have inv := inv_reach h
  have harr : d.arrived = false := by
    cases hda : d.arrived
    · rfl
    · have hcon := inv.arrived_ok d hdm hda
      rw [hc] at hcon
      exact absurd hcon Bool.false_ne_true
  have hrel : s.released = false := by
    cases hr : s.released
    · rfl
    · have hall := (inv.released_arrived hr).1 d hdm
      rw [harr] at hall
      exact absurd hall Bool.false_ne_true
  refine ⟨harr, hrel, ?_⟩
  intro x hx
  cases hp : pastSetup x.pc
  · rfl
  · have hxr := inv.past_released x hx (Or.inl hp)
    rw [hrel] at hxr
    exact absurd hxr Bool.false_ne_true

/-- Witness for the amended claim C1, at the concrete reachable state
c1s1 of the two-driver run. -/
theorem c1_create_failure_blocks_barrier_witness :
    ({ Driver.fresh { allOk with constructOk := false } with pc := PC.done false } : Driver).arrived = false ∧
    c1s1.released = false ∧
    ∀ x ∈ c1s1.drivers, pastSetup x.pc = false :=
  c1_create_failure_blocks_barrier c1oracles 1 c1s1 reach_c1s1
    { Driver.fresh { allOk with constructOk := false } with pc := PC.done false }
    (by decide) (by decide)

/-- Claim C2 (code bug): with zero tasks configured, the tracker is
immediately exhausted, the loop exits via all-reported with
success = count = 0, and the success branch of the finalization then
evaluates start.get().unwrap() on the never-set OnceCell, which panics:
the elapsed-time computation does NOT treat the missing measurement
start as no-measurement. -/
theorem c2_zero_tasks_success_path_panics :
    ValidEvents 2 0 false 0 [Event.setupDone, Event.exhausted] ∧
    runLoop (initLoop 0) [Event.setupDone, Event.exhausted] =
      ({ setupDone := true, success := 0, failed := 0, incomplete := 0 },
        some StopReason.allReported) ∧
    finalize 0 0 0 0 none 7 = FinalOutcome.panicked :=
  ⟨ValidEvents.setup 0 _ (ValidEvents.drain true _ (ValidEvents.nil true 0)),
   by decide, rfl⟩

/-- Claim C3: over any admissible event sequence, when the loop exits
its counters satisfy success + failed + incomplete = count, and
incomplete is exactly the number of driver outcomes never observed. -/
theorem c3_counter_conservation (count timeout : Nat) (evs : List Event)
    (r : StopReason) (hv : ValidEvents timeout count false 0 evs)
    (hstop : (runLoop (initLoop count) evs).2 = some r) :
    (runLoop (initLoop count) evs).1.success + (runLoop (initLoop count) evs).1.failed +
      (runLoop (initLoop count) evs).1.incomplete = count ∧
    (runLoop (initLoop count) evs).1.incomplete =
      count - ((runLoop (initLoop count) evs).1.success + (runLoop (initLoop count) evs).1.failed) :=
  runLoop_counts hv (initLoop count) rfl (by simp [initLoop]) (by simp [initLoop])
    (Nat.zero_le _)

/-- Witness for claim C3: one task, observed Ok, stream exhausted. -/
theorem c3_counter_conservation_witness :
    (runLoop (initLoop 1) [Event.setupDone, Event.result true, Event.exhausted]).1.success +
      (runLoop (initLoop 1) [Event.setupDone, Event.result true, Event.exhausted]).1.failed +
      (runLoop (initLoop 1) [Event.setupDone, Event.result true, Event.exhausted]).1.incomplete = 1 ∧
    (runLoop (initLoop 1) [Event.setupDone, Event.result true, Event.exhausted]).1.incomplete =
      1 - ((runLoop (initLoop 1) [Event.setupDone, Event.result true, Event.exhausted]).1.success +
        (runLoop (initLoop 1) [Event.setupDone, Event.result true, Event.exhausted]).1.failed) :=
  c3_counter_conservation 1 5 [Event.setupDone, Event.result true, Event.exhausted]
    StopReason.allReported
    (ValidEvents.setup 0 _ (ValidEvents.res true 0 true _ (by decide)
      (ValidEvents.drain true _ (ValidEvents.nil true 1))))
    (by decide)

/-- Claim C4: in every reachable state, at most
permits parallel count = (if parallel = 0 then count else parallel)
tasks hold an admission permit simultaneously; the pool is sized to
parallel, or to count when parallel = 0. -/
theorem c4_admission_permit_bound (os : List Oracle) (parallel : Nat)
    (s : RunState) (h : Reach os parallel s) :
    s.held ≤ permits parallel os.length ∧
    permits parallel os.length = if parallel = 0 then os.length else parallel :=
  ⟨(inv_reach h).held_le, rfl⟩

/-- Witness for claim C4 at the reachable state w11. -/
theorem c4_admission_permit_bound_witness :
    w11.held ≤ permits 1 (List.length wOs) ∧
    permits 1 (List.length wOs) = if 1 = 0 then List.length wOs else 1 :=
  c4_admission_permit_bound wOs 1 w11 reach_w11

/-- Claim C5: every driver acquires at most one permit; a driver at its
wait or delete step no longer holds the permit and has already released
exactly what it acquired; and a resolved driver (Ok or Err) holds no
permit and has released exactly what it acquired — one release per
acquire on every exit path. -/
theorem c5_permit_release_discipline (os : List Oracle) (parallel : Nat)
    (s : RunState) (h : Reach os parallel s) :
    ∀ d ∈ s.drivers,
      d.acquires ≤ 1 ∧
      (d.pc = PC.wait ∨ d.pc = PC.delete →
        d.holdsPermit = false ∧ d.releases = d.acquires) ∧
      (∀ b, d.pc = PC.done b → d.holdsPermit = false ∧ d.releases = d.acquires) := by
  intro d hdm
  have inv := inv_reach h
  have hh := inv.holding_iff d hdm
  have har := inv.acq_rel d hdm
  refine ⟨inv.acq_le d hdm, ?_, ?_⟩
  · intro hpc
    have hfalse : d.holdsPermit = false := by
      rcases hpc with hpc | hpc <;> rw [hh, hpc] <;> rfl
    rw [hfalse] at har
    simp at har
    exact ⟨hfalse, by omega⟩
  · intro b hpc
    have hfalse : d.holdsPermit = false := by rw [hh, hpc]; rfl
    rw [hfalse] at har
    simp at har
    exact ⟨hfalse, by omega⟩

/-- Witness for claim C5 at the resolved driver of state w11. -/
theorem c5_permit_release_discipline_witness :
    w11driver.acquires ≤ 1 ∧
    (w11driver.pc = PC.wait ∨ w11driver.pc = PC.delete →
      w11driver.holdsPermit = false ∧ w11driver.releases = w11driver.acquires) ∧
    (∀ b, w11driver.pc = PC.done b →
      w11driver.holdsPermit = false ∧ w11driver.releases = w11driver.acquires) :=
  c5_permit_release_discipline wOs 1 w11 reach_w11 w11driver (by decide)

/-- Claim C6: over any admissible event sequence, if the loop stops with
Timeout then the setup_done future had already terminated (the barrier
had released, so the arbiter was no longer in the Setup phase) and the
configured timeout was non-zero; a zero timeout permanently disables the
timeout stop condition. -/
theorem c6_watchdog_guarded (timeout count : Nat) (evs : List Event)
    (hv : ValidEvents timeout count false 0 evs) :
    ((runLoop (initLoop count) evs).2 = some StopReason.timeout →
      (runLoop (initLoop count) evs).1.setupDone = true ∧ timeout ≠ 0) ∧
    (timeout = 0 → (runLoop (initLoop count) evs).2 ≠ some StopReason.timeout) := by
  have h := runLoop_timeout hv (initLoop count) rfl
  exact ⟨h, fun hz hstop => (h hstop).2 hz⟩

/-- Witness for claim C6: a timeout stop after barrier release, with a
non-zero timeout. -/
theorem c6_watchdog_guarded_witness :
    (runLoop (initLoop 3) [Event.setupDone, Event.timeoutFired]).1.setupDone = true ∧
    (5 : Nat) ≠ 0 :=
  (c6_watchdog_guarded 5 3 [Event.setupDone, Event.timeoutFired]
    (ValidEvents.setup 0 _ (ValidEvents.fire 0 _ (by decide)
      (ValidEvents.nil true 0)))).1 (by decide)

/-- Claim C7: whenever the measurement start instant has been recorded,
every driver completed its task-construction step at or before that
instant: the start timestamp is taken only after the barrier released,
which happens only after all shim.task calls returned. -/
theorem c7_measurement_start_after_creates (os : List Oracle) (parallel : Nat)
    (s : RunState) (h : Reach os parallel s) (t : Nat) (ht : s.startTime = some t) :
    ∀ d ∈ s.drivers, ∃ c, d.newTaskDoneAt = some c ∧ c ≤ t := by
  have inv := inv_reach h
  obtain ⟨r, hra, hrt, _⟩ := inv.startTime_inv t ht
  intro d hdm
  obtain ⟨c, hc, hcr⟩ := inv.releasedAt_after r hra d hdm
  exact ⟨c, hc, by omega⟩

/-- Witness for claim C7 at state w11, where the start instant is 5 and
the single driver finished shim.task at time 0. -/
theorem c7_measurement_start_after_creates_witness :
    ∃ c, w11driver.newTaskDoneAt = some c ∧ c ≤ 5 :=
  c7_measurement_start_after_creates wOs 1 w11 reach_w11 5 rfl w11driver (by decide)

/-- Claim C8: the loop exits with reason r exactly when the first
breaking event (watchdog, ctrl_c, or stream exhaustion) of the sequence
has that reason; a driver outcome — in particular a Fail — never breaks
the loop, and a Fail outcome is recorded by incrementing the failed
counter. -/
theorem c8_per_task_failure_never_stops_loop (s : LoopState) (evs : List Event)
    (r : StopReason) :
    ((runLoop s evs).2 = some r ↔
      ∃ pre e post, evs = pre ++ e :: post ∧
        (∀ x ∈ pre, stopOf x = none) ∧ stopOf e = some r) ∧
    (∀ ok, stopOf (Event.result ok) = none) ∧
    (∀ s2 es, runLoop s2 (Event.result false :: es) =
      runLoop { s2 with failed := s2.failed + 1, incomplete := s2.incomplete - 1 } es) ∧
    stopOf Event.timeoutFired = some StopReason.timeout ∧
    stopOf Event.interrupt = some StopReason.interrupted ∧
    stopOf Event.exhausted = some StopReason.allReported :=
  ⟨runLoop_stop_decomp evs s r, fun ok => by cases ok <;> rfl,
   fun s2 es => rfl, rfl, rfl, rfl⟩

/-- Claim C9, counterexample: a run where every task succeeded produces
the success summary, which does not report the
(success, failed, incomplete) triple — only the failure summary does. -/
theorem c9_success_summary_omits_triple_cex :
    finalize 3 3 0 0 (some 2) 7 = FinalOutcome.successSummary 3 5 ∧
    reportsTriple (finalize 3 3 0 0 (some 2) 7) = false :=
  ⟨rfl, rfl⟩

/-- Claim C9, amended: the failure summary reports the triple
(success, failed, incomplete) and is produced exactly when
success differs from count; the run claims success — success summary and
exit code zero — exactly when success equals the total task count and
the measurement start instant was recorded. -/
theorem c9_final_summary_amended (count success failed incomplete : Nat)
    (st : Option Nat) (now : Nat) :
    (success ≠ count →
      finalize count success failed incomplete st now =
        FinalOutcome.failureSummary success failed incomplete) ∧
    (claimsSuccess (finalize count success failed incomplete st now) = true ↔
      success = count ∧ st ≠ none) ∧
    exitZero (finalize count success failed incomplete st now) =
      claimsSuccess (finalize count success failed incomplete st now) ∧
    (reportsTriple (finalize count success failed incomplete st now) = true ↔
      success ≠ count) := by
  by_cases h : success = count
  · subst h
    cases st <;> simp [finalize, claimsSuccess, exitZero, reportsTriple]
  · simp [finalize, h, claimsSuccess, exitZero, reportsTriple]

/-- Witness for the amended claim C9: a failed run reports the triple. -/
theorem c9_final_summary_amended_witness :
    finalize 3 0 0 3 none 9 = FinalOutcome.failureSummary 0 0 3 :=
  (c9_final_summary_amended 3 0 0 3 none 9).1 (by decide)

/-- Claim C10: the setup phase performs exactly task-construction and
create(false) on the pause container — never start, wait, or delete —
and if constructing or creating the pause container fails the run aborts
with zero driver futures spawned. -/
theorem c10_pause_container_setup (o : SetupOracle) (image : String)
    (args : List String) (count : Nat) :
    (PauseOp.start ∉ (setupPhase o image args count).pauseOps ∧
     PauseOp.wait ∉ (setupPhase o image args count).pauseOps ∧
     PauseOp.delete ∉ (setupPhase o image args count).pauseOps) ∧
    (o.pauseTaskOk = false ∨ o.pauseCreateOk = false →
      (setupPhase o image args count).spawned = 0 ∧
      (setupPhase o image args count).ok = false) ∧
    (o.shimOk = true → o.pauseTaskOk = true → o.pauseCreateOk = true →
      (setupPhase o image args count).pauseOps =
        [PauseOp.newTask image args, PauseOp.create false] ∧
      (setupPhase o image args count).spawned = count ∧
      (setupPhase o image args count).ok = true) := by
  obtain ⟨s1, s2, s3⟩ := o
  cases s1 <;> cases s2 <;> cases s3 <;> simp [setupPhase]

/-- Witness for claim C10: create of the pause container fails, the run
aborts before spawning any driver. -/
theorem c10_pause_container_setup_witness :
    (setupPhase { shimOk := true, pauseTaskOk := true, pauseCreateOk := false }
      "img" ["echo", "hello"] 5).spawned = 0 ∧
    (setupPhase { shimOk := true, pauseTaskOk := true, pauseCreateOk := false }
      "img" ["echo", "hello"] 5).ok = false :=
  (c10_pause_container_setup { shimOk := true, pauseTaskOk := true, pauseCreateOk := false }
    "img" ["echo", "hello"] 5).2.1 (Or.inr rfl)

end StressTest
